import Mathlib

/-!
Shallow embedding of the OgoMovies extraction module (`src/ogomovies.js`).

The module exposes four operations: `searchResults`, `extractDetails`,
`extractEpisodes` and `extractStreamUrl`.  Each JavaScript operation receives
its data through the injected `fetchv2` capability; here the capability is an
explicit functional argument.  A fetch (together with its `.json()` /
`.text()` decoding) that throws is modelled as `none`; a successful call is
`some payload`.  The JavaScript functions serialise their result with
`JSON.stringify` at the very end; the embedding models the value being
serialised.  The regular-expression scans of the source are embedded as
explicit leftmost-match scanners with greedy (longest-first) backtracking,
mirroring the semantics of the JavaScript regex engine on the concrete
patterns used by the module.
-/

namespace Ogomovies

/-! ### JavaScript string primitives -/

/-- The character set matched by JavaScript `\s` and removed by
`String.prototype.trim`. -/
def isJsWs (c : Char) : Bool :=
  ([0x9, 0xA, 0xB, 0xC, 0xD, 0x20, 0xA0, 0x1680, 0x2028, 0x2029,
    0x202F, 0x205F, 0x3000, 0xFEFF] : List Nat).contains c.toNat
  || (0x2000 ≤ c.toNat && c.toNat ≤ 0x200A)

/-- `String.prototype.trim` on a character list. -/
def jsTrimL (l : List Char) : List Char :=
  ((l.dropWhile isJsWs).reverse.dropWhile isJsWs).reverse

/-- `String.prototype.trim`. -/
def jsTrimS (s : String) : String :=
  String.mk (jsTrimL s.toList)

/-- Case-insensitive literal match (the `/i` flag of the source's regexes):
consume `pat` at the head of the input, returning the remainder. -/
def matchLitCI : List Char → List Char → Option (List Char)
  | [], rest => some rest
  | _ :: _, [] => none
  | p :: ps, c :: cs => if p.toLower = c.toLower then matchLitCI ps cs else none

/-- Leftmost-match scan: `String.prototype.match` tries the anchored matcher
`f` at every position of the subject, left to right (including the empty
position at the end). -/
def scanMatch {α : Type} (f : List Char → Option α) : List Char → Option α
  | [] => f []
  | c :: cs =>
    match f (c :: cs) with
    | some r => some r
    | none => scanMatch f cs

/-- First `some` produced by `f` over a candidate list (backtracking order). -/
def firstSome {α β : Type} (f : α → Option β) : List α → Option β
  | [] => none
  | a :: as =>
    match f a with
    | some b => some b
    | none => firstSome f as

/-- Candidate remainders for a greedy `[^x]*` quantifier, longest consumption
first, exactly the backtracking order of the JavaScript engine. -/
def greedyRests (keep : Char → Bool) (l : List Char) : List (List Char) :=
  (List.range ((l.takeWhile keep).length + 1)).map fun j =>
    l.drop ((l.takeWhile keep).length - j)

/-- Greedy `\s+`: consume a non-empty whitespace run (the following literal in
every pattern of the source starts with a non-whitespace character, so the
greedy run is forced). -/
def wsPlus (l : List Char) : Option (List Char) :=
  if (l.takeWhile isJsWs).length = 0 then none
  else some (l.drop (l.takeWhile isJsWs).length)

def notGt (c : Char) : Bool := c ≠ '>'

def notQuote (c : Char) : Bool := c ≠ '"'

/-! ### The tag-stripping replace of `extractDetails`

`raw.replace(/<[^>]+>/g, repl)`: each non-overlapping leftmost match runs from
a `<` over at least one non-`>` character up to the next `>`. -/

/-- Remainder after the first `>` of the list, if any. -/
def tagEnd : List Char → Option (List Char)
  | [] => none
  | c :: cs => if c = '>' then some cs else tagEnd cs

/-- The span of a `<[^>]+>` match beginning right after a `<`: fails when the
very next character is already `>` (the `[^>]+` needs at least one character),
otherwise consumes up to and including the first `>`. -/
def tagSpan : List Char → Option (List Char)
  | [] => none
  | c :: cs => if c = '>' then none else tagEnd (c :: cs)

/-- Global replace of `/<[^>]+>/g` by `repl`, with a structural fuel argument
(each consumed match or copied character strictly shortens the list, so a fuel
equal to the initial length never runs out). -/
def stripTagsGo (repl : List Char) : Nat → List Char → List Char
  | _, [] => []
  | 0, l => l
  | fuel + 1, c :: cs =>
    if c = '<' then
      match tagSpan cs with
      | some rest => repl ++ stripTagsGo repl fuel rest
      | none => c :: stripTagsGo repl fuel cs
    else c :: stripTagsGo repl fuel cs

/-- Global replace of `/<[^>]+>/g` by `repl` (the source uses `' '` for the
description and `''` for the alias). -/
def stripTagsW (repl : List Char) (l : List Char) : List Char :=
  stripTagsGo repl l.length l

/-- Global replace of `/\s+/g` by a single space, with a structural fuel
argument in the style of `stripTagsGo`. -/
def collapseWsGo : Nat → List Char → List Char
  | _, [] => []
  | 0, l => l
  | fuel + 1, c :: cs =>
    if isJsWs c then ' ' :: collapseWsGo fuel (cs.dropWhile isJsWs)
    else c :: collapseWsGo fuel cs

/-- Global replace of `/\s+/g` by a single space. -/
def collapseWs (l : List Char) : List Char :=
  collapseWsGo l.length l

/-! ### The anchored matchers for the four regexes of the source -/

/-- Anchored `/(19|20)\d{2}/`: the year extractor of `extractDetails`. -/
def yearAt : List Char → Option (List Char)
  | a :: b :: c :: d :: _ =>
    if ((a = '1' ∧ b = '9') ∨ (a = '2' ∧ b = '0')) ∧ c.isDigit ∧ d.isDigit then
      some [a, b, c, d]
    else none
  | _ => none

/-- Anchored `/\/movies\/([^/?#]+)(?:\/?|$)/i`: the slug extractor.  The
trailing group always matches (empty alternative), so the capture is the
maximal non-empty run of characters other than `/`, `?`, `#`. -/
def slugAt (l : List Char) : Option (List Char) :=
  (matchLitCI ("/movies/".toList) l).bind fun r =>
    if (r.takeWhile fun c => c ≠ '/' ∧ c ≠ '?' ∧ c ≠ '#').length = 0 then none
    else some (r.takeWhile fun c => c ≠ '/' ∧ c ≠ '?' ∧ c ≠ '#')

/-- Anchored `/<meta\s+property="og:image"\s+content="([^"]+)"/i`: the poster
extractor of `searchResults`.  The greedy `([^"]+)` capture is the maximal
non-empty quote-free run, which must be followed by the closing quote. -/
def ogImageAt (l : List Char) : Option (List Char) :=
  (matchLitCI ("<meta".toList) l).bind fun r1 =>
  (wsPlus r1).bind fun r2 =>
  (matchLitCI ("property=\"og:image\"".toList) r2).bind fun r3 =>
  (wsPlus r3).bind fun r4 =>
  (matchLitCI ("content=\"".toList) r4).bind fun r5 =>
    if (r5.takeWhile notQuote).length = 0 then none
    else if (r5.drop (r5.takeWhile notQuote).length).head? = some '"' then
      some (r5.takeWhile notQuote)
    else none

/-- The `[^"]*metaframe[^"]*"` part of the iframe pattern: greedy `[^"]*`,
the literal `metaframe`, then the remaining quote-free run followed by the
closing quote; returns the remainder after that quote. -/
def classValueMatch (l : List Char) : Option (List Char) :=
  firstSome (fun rB =>
    (matchLitCI ("metaframe".toList) rB).bind fun rM =>
      match rM.drop (rM.takeWhile notQuote).length with
      | '"' :: r => some r
      | _ => none)
    (greedyRests notQuote l)

/-- The `[^>]*src="([^"]+)"` tail of the iframe pattern. -/
def iframeTail (l : List Char) : Option (List Char) :=
  firstSome (fun r4 =>
    (matchLitCI ("src=\"".toList) r4).bind fun r5 =>
      if (r5.takeWhile notQuote).length = 0 then none
      else if (r5.drop (r5.takeWhile notQuote).length).head? = some '"' then
        some (r5.takeWhile notQuote)
      else none)
    (greedyRests notGt l)

/-- Anchored `/<iframe[^>]*class="[^"]*metaframe[^"]*"[^>]*src="([^"]+)"/i`:
the stream extractor of `extractStreamUrl`, with the greedy quantifiers tried
longest-first as the JavaScript backtracking engine does. -/
def iframeMatchAt (l : List Char) : Option (List Char) :=
  (matchLitCI ("<iframe".toList) l).bind fun r1 =>
  firstSome (fun r2 =>
    (matchLitCI ("class=\"".toList) r2).bind fun r3 =>
    (classValueMatch r3).bind fun rAfter =>
    iframeTail rAfter)
    (greedyRests notGt r1)

/-! ### `encodeURIComponent` -/

def hexDigit (n : Nat) : Char :=
  if n < 10 then Char.ofNat (48 + n) else Char.ofNat (55 + n)

/-- UTF-8 bytes of a code point (JavaScript percent-encodes the UTF-8 form). -/
def utf8Bytes (c : Char) : List Nat :=
  if c.toNat < 0x80 then [c.toNat]
  else if c.toNat < 0x800 then
    [0xC0 + c.toNat / 0x40, 0x80 + c.toNat % 0x40]
  else if c.toNat < 0x10000 then
    [0xE0 + c.toNat / 0x1000, 0x80 + c.toNat / 0x40 % 0x40, 0x80 + c.toNat % 0x40]
  else
    [0xF0 + c.toNat / 0x40000, 0x80 + c.toNat / 0x1000 % 0x40,
     0x80 + c.toNat / 0x40 % 0x40, 0x80 + c.toNat % 0x40]

/-- The characters `encodeURIComponent` leaves unescaped. -/
def isUnreserved (c : Char) : Bool :=
  c.isAlpha || c.isDigit ||
    (['-', '_', '.', '!', '~', '*', Char.ofNat 39, '(', ')'] : List Char).contains c

def percentEncodeChar (c : Char) : List Char :=
  (utf8Bytes c).flatMap fun b => ['%', hexDigit (b / 16), hexDigit (b % 16)]

def encodeURIComponent (s : String) : String :=
  String.mk (s.toList.flatMap fun c => if isUnreserved c then [c] else percentEncodeChar c)

/-! ### Data model -/

structure SearchItem where
  title : Option String
  url : Option String
deriving DecidableEq

structure SearchResult where
  title : String
  image : String
  href : String
deriving DecidableEq

structure Post where
  contentRendered : Option String
  titleRendered : Option String
deriving DecidableEq

structure DetailRecord where
  description : String
  aliases : String
  airdate : String
deriving DecidableEq

structure Episode where
  href : String
  number : String
deriving DecidableEq

/-! ### The four operations -/

/-- The search endpoint URL built at line 42 of the source. -/
def searchUrlOf (keyword : String) : String :=
  "https://ogomovies.com.pk/wp-json/wp/v2/search?search="
    ++ encodeURIComponent (jsTrimS keyword) ++ "&subtype=movies&per_page=10"

/-- The per-item poster lookup (lines 52-64): fetch the movie page, match the
`og:image` meta tag, trim the capture; any failure leaves the image blank. -/
def imageFor (fetchText : String → Option String) (href : String) : String :=
  if href ≠ "" then
    match fetchText href with
    | some html =>
      match scanMatch ogImageAt html.toList with
      | some cap => jsTrimS (String.mk cap)
      | none => ""
    | none => ""
  else ""

/-- One iteration of the `for (const item of data)` loop (lines 47-74):
emit the item only when both raw `title` and `url` are truthy. -/
def processItem (fetchText : String → Option String) (item : SearchItem) :
    Option SearchResult :=
  if item.title.getD "" ≠ "" ∧ item.url.getD "" ≠ "" then
    some ⟨jsTrimS (item.title.getD ""), imageFor fetchText (item.url.getD ""),
          jsTrimS (item.url.getD "")⟩
  else none

/-- `searchResults` (lines 37-80).  `fetchJson` models `fetchv2` plus
`.json()` on the search endpoint; `none` is a thrown error, handled by the
top-level `catch` which returns the empty list. -/
def searchResults (keyword : String) (fetchJson : String → Option (List SearchItem))
    (fetchText : String → Option String) : List SearchResult :=
  match fetchJson (searchUrlOf keyword) with
  | some data => data.filterMap (processItem fetchText)
  | none => []

/-- The movies-by-slug endpoint URL of line 95. -/
def detailsUrlOf (slug : String) : String :=
  "https://ogomovies.com.pk/wp-json/wp/v2/movies?slug=" ++ encodeURIComponent slug

/-- The slug derived from the input URL (lines 86-87). -/
def slugOf (url : String) : String :=
  match scanMatch slugAt url.toList with
  | some cap => String.mk cap
  | none => ""

/-- First leftmost `/(19|20)\d{2}/` match in the slug (lines 111-112). -/
def yearOf (slug : String) : String :=
  match scanMatch yearAt slug.toList with
  | some y => String.mk y
  | none => ""

/-- Field extraction from the API answer (lines 98-113): the description is
the tag-stripped, whitespace-collapsed, trimmed rendered body; the alias is
the tag-stripped trimmed rendered title; the airdate is the year pattern of
the slug.  A missing first post (or a non-array answer) leaves all empty. -/
def detailFields (slug : String) (posts? : Option (List Post)) :
    String × String × String :=
  match posts? with
  | some (post :: _) =>
    ((match post.contentRendered with
      | some raw => jsTrimS (String.mk (collapseWs (stripTagsW [' '] raw.toList)))
      | none => ""),
     (match post.titleRendered with
      | some t => jsTrimS (String.mk (stripTagsW [] t.toList))
      | none => ""),
     yearOf slug)
  | _ => ("", "", "")

/-- `extractDetails` (lines 82-125).  `fetchPosts` models `fetchv2` plus
`.json()` on the movies endpoint: `none` is a thrown error (handled by the
`catch`, which returns a single all-empty record); `some none` a non-array
answer; `some (some posts)` an array.  Only the description is defaulted to a
sentinel at assembly (line 116); aliases and airdate fall back to `''`. -/
def extractDetails (url : String) (fetchPosts : String → Option (Option (List Post))) :
    List DetailRecord :=
  if slugOf url ≠ "" then
    match fetchPosts (detailsUrlOf (slugOf url)) with
    | none => [⟨"", "", ""⟩]
    | some posts? =>
      [⟨(if (detailFields (slugOf url) posts?).1 = "" then "No description available"
         else (detailFields (slugOf url) posts?).1),
        (detailFields (slugOf url) posts?).2.1,
        (detailFields (slugOf url) posts?).2.2⟩]
  else [⟨"No description available", "", ""⟩]

/-- `extractEpisodes` (lines 127-141): always a single synthetic episode
numbered "1" pointing back at the input. -/
def extractEpisodes (url : String) : List Episode :=
  [⟨url, "1"⟩]

/-- `extractStreamUrl` (lines 143-158): fetch the page, return the capture of
the first iframe-pattern match, `none` on a miss or a thrown fetch. -/
def extractStreamUrl (url : String) (fetchText : String → Option String) :
    Option String :=
  match fetchText url with
  | none => none
  | some html =>
    match scanMatch iframeMatchAt html.toList with
    | some cap => some (String.mk cap)
    | none => none

/-! ### Lemmas about the leftmost-match scanner -/

/-- All suffixes of a list, in position order (the positions `String.match`
tries), ending with the empty suffix. -/
def allTails : List Char → List (List Char)
  | [] => [[]]
  | c :: cs => (c :: cs) :: allTails cs

theorem scanMatch_eq_none {α : Type} (f : List Char → Option α) (l : List Char)
    (h : ∀ s ∈ allTails l, f s = none) : scanMatch f l = none := by
  induction l with
  | nil =>
    have h0 := h [] (by simp [allTails])
    simp [scanMatch, h0]
  | cons c cs ih =>
    have h0 := h (c :: cs) (by simp [allTails])
    simp only [scanMatch, h0]
    exact ih fun s hs => h s (by simp [allTails]; exact Or.inr hs)

theorem scanMatch_min {α : Type} (f : List Char → Option α) :
    ∀ (l : List Char) (i : Nat) (r : α), (∀ j, j < i → f (l.drop j) = none) →
      f (l.drop i) = some r → scanMatch f l = some r := by
  intro l
  induction l with
  | nil =>
    intro i r _ h2
    rw [List.drop_nil] at h2
    simp [scanMatch, h2]
  | cons c cs ih =>
    intro i r h1 h2
    cases i with
    | zero =>
      rw [List.drop_zero] at h2
      simp only [scanMatch, h2]
    | succ i' =>
      have h0 : f (c :: cs) = none := by
        have := h1 0 (Nat.succ_pos i')
        rwa [List.drop_zero] at this
      simp only [scanMatch, h0]
      exact ih i' r (fun j hj => by simpa using h1 (j + 1) (Nat.succ_lt_succ hj))
        (by simpa using h2)

/-! ### A document-order reading of "marker-class frame"

Used only to exhibit the divergence between the specification sentence
"`resolveStream` returns the *first* matching marker-class frame's source"
and the source's regex (which requires the `class` attribute to precede
`src` inside the tag): a plain attribute-level parse of the iframe tags in
document order, following the spec's words. -/

def containsTokenCI (needle hay : List Char) : Bool :=
  (scanMatch (fun l => matchLitCI needle l) hay).isSome

/-- Value of the attribute `name="..."` inside the character span of a tag. -/
def tagAttr (name : List Char) (tag : List Char) : Option (List Char) :=
  scanMatch (fun l =>
    (matchLitCI (name ++ ['=', '"']) l).bind fun r => some (r.takeWhile notQuote)) tag

/-- The `src` values of all iframe tags whose `class` attribute contains
`metaframe`, in document order (reading of the claim, not of the code). -/
def specMarkerSrcs : List Char → List (List Char)
  | [] => []
  | c :: cs =>
    (match matchLitCI ("<iframe".toList) (c :: cs) with
     | some r =>
       match tagAttr ("class".toList) (r.takeWhile notGt) with
       | some cv =>
         if containsTokenCI ("metaframe".toList) cv then
           match tagAttr ("src".toList) (r.takeWhile notGt) with
           | some sv => [sv]
           | none => []
         else []
       | none => []
     | none => []) ++ specMarkerSrcs cs

/-- The first marker-class frame's `src`, in the claim's document-order
reading. -/
def specFirstMarkerSrc (html : List Char) : Option (List Char) :=
  (specMarkerSrcs html).head?

/-! ### Claims -/

/-- Claim C1, counterexample: the truthiness check of line 67 runs on the raw
`title`/`href`, but the emitted fields are the trimmed values (lines 69-71).
An API item whose title is a single space is therefore emitted with an empty
title, violating "every element of that sequence has a non-empty title". -/
theorem C1_counterexample :
    searchResults "k" (fun _ => some [⟨some " ", some "u"⟩]) (fun _ => none)
      = [⟨"", "", "u"⟩] := by decide

/-- Claim C1, amended: when the search API answers with at most 10 items (the
request asks for `per_page=10`), `searchResults` returns at most 10 elements,
and every element stems from an item whose raw title and url were non-empty;
the emitted title and href are the trimmed raw values (so they can be empty
when the raw field is whitespace-only). -/
theorem C1_search_bounded (kw : String) (fj : String → Option (List SearchItem))
    (ft : String → Option String) (data : List SearchItem)
    (hfj : fj (searchUrlOf kw) = some data) (hlen : data.length ≤ 10) :
    (searchResults kw fj ft).length ≤ 10 ∧
      ∀ r ∈ searchResults kw fj ft, ∃ it ∈ data,
        it.title.getD "" ≠ "" ∧ it.url.getD "" ≠ "" ∧
        r.title = jsTrimS (it.title.getD "") ∧ r.href = jsTrimS (it.url.getD "") := by
  unfold searchResults
  rw [hfj]
  constructor
  · exact le_trans (List.length_filterMap_le _ _) hlen
  · intro r hr
    rw [List.mem_filterMap] at hr
    obtain ⟨it, hit, hpr⟩ := hr
    refine ⟨it, hit, ?_⟩
    unfold processItem at hpr
    split at hpr
    · rename_i hc
      cases hpr
      exact ⟨hc.1, hc.2, rfl, rfl⟩
    · exact Option.noConfusion hpr

theorem C1_search_bounded_witness :
    (searchResults "k" (fun _ => some [⟨some "Movie", some "https://x/m/"⟩])
      (fun _ => none)).length ≤ 10 :=
  (C1_search_bounded "k" _ _ [⟨some "Movie", some "https://x/m/"⟩] rfl
    (by decide)).1

/-- Claim C2, counterexample: lines 117-118 default `aliases` and `airdate`
to `''`, not to a sentinel.  A slug the API answers with a non-array (or with
no derivable fields) yields a record whose aliases and airdate are empty
strings, violating "no emitted record contains an empty-string field". -/
theorem C2_counterexample :
    extractDetails "https://ogomovies.com.pk/movies/foo/" (fun _ => some none)
      = [⟨"No description available", "", ""⟩] := by decide

/-- Claim C2, amended: only the `description` field is defensively defaulted
(line 116): whenever no exception is caught, the emitted record's description
is non-empty (the sentinel "No description available" when underivable);
`aliases` and `airdate` fall back to the empty string, and the exception path
emits a record with all three fields empty. -/
theorem C2_description_sentinel (url : String)
    (fp : String → Option (Option (List Post))) (hfp : ∀ u, fp u ≠ none) :
    ∀ r ∈ extractDetails url fp, r.description ≠ "" := by
  intro r hr
  unfold extractDetails at hr
  by_cases h : slugOf url ≠ ""
  · rw [if_pos h] at hr
    cases hq : fp (detailsUrlOf (slugOf url)) with
    | none => exact absurd hq (hfp _)
    | some posts? =>
      rw [hq] at hr
      simp only [List.mem_singleton] at hr
      rw [hr]
      by_cases hd : (detailFields (slugOf url) posts?).1 = ""
      · simp [hd]
      · simp [hd]
  · rw [if_neg h] at hr
    simp only [List.mem_singleton] at hr
    rw [hr]
    simp

theorem C2_description_sentinel_witness :
    DetailRecord.description ⟨"No description available", "", ""⟩ ≠ "" :=
  C2_description_sentinel "https://ogomovies.com.pk/movies/foo/" (fun _ => some none)
    (fun _ h => Option.noConfusion h) ⟨"No description available", "", ""⟩ (by decide)

/-- Claim C3: every operation is a total function of its input and of the
fetch capability (no exception escapes), and when the fetch capability throws
on every request each operation returns its documented default: the empty
list for search, a single degraded record for details (all-empty on the catch
path of line 123, sentinel-description when the slug is underivable and no
fetch happens), the synthetic single episode, and `none` for the stream. -/
theorem C3_never_throws_defaults (kw u1 u2 u3 : String)
    (fj : String → Option (List SearchItem)) (ft ft' : String → Option String)
    (fp : String → Option (Option (List Post)))
    (hfj : ∀ u, fj u = none) (hfp : ∀ u, fp u = none) (hft : ∀ u, ft' u = none) :
    searchResults kw fj ft = [] ∧
    (extractDetails u1 fp = [⟨"", "", ""⟩] ∨
      extractDetails u1 fp = [⟨"No description available", "", ""⟩]) ∧
    extractEpisodes u2 = [⟨u2, "1"⟩] ∧
    extractStreamUrl u3 ft' = none := by
  refine ⟨?_, ?_, rfl, ?_⟩
  · unfold searchResults
    rw [hfj]
  · unfold extractDetails
    by_cases h : slugOf u1 ≠ ""
    · rw [if_pos h, hfp]
      exact Or.inl rfl
    · rw [if_neg h]
      exact Or.inr rfl
  · unfold extractStreamUrl
    rw [hft]

theorem C3_never_throws_defaults_witness :
    searchResults "kw" (fun _ => none) (fun _ => none) = [] ∧
    (extractDetails "https://ogomovies.com.pk/movies/foo/" (fun _ => none)
        = [⟨"", "", ""⟩] ∨
      extractDetails "https://ogomovies.com.pk/movies/foo/" (fun _ => none)
        = [⟨"No description available", "", ""⟩]) ∧
    extractEpisodes "e" = [⟨"e", "1"⟩] ∧
    extractStreamUrl "s" (fun _ => none) = none :=
  C3_never_throws_defaults "kw" "https://ogomovies.com.pk/movies/foo/" "e" "s"
    _ _ _ _ (fun _ => rfl) (fun _ => rfl) (fun _ => rfl)

/-- Claim C4: for every input reference, `extractEpisodes` returns exactly
one element, numbered "1", whose href is the input reference (lines 132-135). -/
theorem C4_single_synthetic_episode (url : String) :
    extractEpisodes url = [⟨url, "1"⟩] := rfl

/-- Claim C5, counterexample: the page below contains two iframe elements
whose class attribute contains `metaframe`; the first (in document order, per
the attribute-level reading `specFirstMarkerSrc`) has src "a", but because its
`src` attribute precedes its `class` attribute the regex of line 149 skips it
and `extractStreamUrl` returns the later frame's src "b". -/
theorem C5_counterexample :
    specFirstMarkerSrc
        ("<iframe src=\"a\" class=\"metaframe\"></iframe><iframe class=\"metaframe\" src=\"b\">".toList)
        = some ['a'] ∧
    extractStreamUrl "https://ogomovies.com.pk/movies/x/"
        (fun _ => some "<iframe src=\"a\" class=\"metaframe\"></iframe><iframe class=\"metaframe\" src=\"b\">")
        = some "b" := by
  constructor
  · decide
  · decide

/-- Claim C5, amended: `extractStreamUrl` returns the capture of the iframe
pattern (marker class listed before `src` inside the tag) at the leftmost
matching position of the document: whenever position `i` matches and every
earlier position does not, the result is the src captured at `i`, never that
of a later match. -/
theorem C5_first_pattern_match (url html : String) (ft : String → Option String)
    (i : Nat) (cap : List Char) (hf : ft url = some html)
    (hmin : ∀ j, j < i → iframeMatchAt (html.toList.drop j) = none)
    (hi : iframeMatchAt (html.toList.drop i) = some cap) :
    extractStreamUrl url ft = some (String.mk cap) := by
  have hsc := scanMatch_min iframeMatchAt html.toList i cap hmin hi
  simp only [String.toList] at hsc
  simp [extractStreamUrl, hf, hsc]

theorem C5_first_pattern_match_witness :
    extractStreamUrl "u" (fun _ => some "<iframe class=\"metaframe\" src=\"b\">")
      = some "b" :=
  C5_first_pattern_match "u" "<iframe class=\"metaframe\" src=\"b\">" _ 0 ['b'] rfl
    (fun j hj => absurd hj (Nat.not_lt_zero j)) (by decide)

/-- Claim C6: when the fetched page has no position at which the marker-class
iframe pattern matches (in particular when it contains no iframe element whose
class attribute contains the marker token), `extractStreamUrl` returns `none`
rather than an error. -/
theorem C6_no_marker_absent (url html : String) (ft : String → Option String)
    (hf : ft url = some html)
    (h : ∀ s ∈ allTails html.toList, iframeMatchAt s = none) :
    extractStreamUrl url ft = none := by
  have hsc := scanMatch_eq_none iframeMatchAt html.toList h
  simp only [String.toList] at hsc
  simp [extractStreamUrl, hf, hsc]

theorem C6_no_marker_absent_witness :
    extractStreamUrl "https://ogomovies.com.pk/movies/x/"
      (fun _ => some "<p>No frames here</p>") = none :=
  C6_no_marker_absent "https://ogomovies.com.pk/movies/x/" "<p>No frames here</p>"
    _ rfl (by decide)

/-- Claim C7: if the per-item poster fetch fails for one item (modelled by the
page fetch throwing), that item is still emitted — with an empty image — in
its place in the output, and the surrounding items are processed exactly as
they would otherwise be: one bad item never aborts the batch. -/
theorem C7_item_failure_isolated (kw : String)
    (fj : String → Option (List SearchItem)) (ft : String → Option String)
    (pre post : List SearchItem) (it : SearchItem)
    (hfj : fj (searchUrlOf kw) = some (pre ++ it :: post))
    (ht : it.title.getD "" ≠ "") (hh : it.url.getD "" ≠ "")
    (hf : ft (it.url.getD "") = none) :
    searchResults kw fj ft =
      pre.filterMap (processItem ft)
        ++ ⟨jsTrimS (it.title.getD ""), "", jsTrimS (it.url.getD "")⟩
          :: post.filterMap (processItem ft) := by
  have himg : imageFor ft (it.url.getD "") = "" := by
    unfold imageFor
    rw [if_pos hh, hf]
  have hit : processItem ft it
      = some ⟨jsTrimS (it.title.getD ""), "", jsTrimS (it.url.getD "")⟩ := by
    unfold processItem
    rw [if_pos ⟨ht, hh⟩, himg]
  simp [searchResults, hfj, List.filterMap_append, List.filterMap_cons, hit]

theorem C7_item_failure_isolated_witness :
    searchResults "k"
      (fun _ => some [⟨some "A", some "https://x/a/"⟩, ⟨some "B", some "https://x/b/"⟩])
      (fun _ => none)
      = List.filterMap (processItem (fun _ => none)) [⟨some "A", some "https://x/a/"⟩]
          ++ ⟨"B", "", "https://x/b/"⟩ :: List.filterMap (processItem (fun _ => none)) [] :=
  C7_item_failure_isolated "k" _ _ [⟨some "A", some "https://x/a/"⟩] []
    ⟨some "B", some "https://x/b/"⟩ rfl (by decide) (by decide) rfl

/-- Claim C8: in API mode, when the content API returns a first post for the
slug, the emitted description is the rendered body with markup stripped to
spaces, whitespace runs collapsed and ends trimmed (sentineled only when
empty), the alias is the markup-stripped trimmed rendered title, and the
airdate is the first four-digit year pattern found in the slug. -/
theorem C8_api_field_derivation (url raw t : String) (slugC : List Char)
    (rest : List Post) (fp : String → Option (Option (List Post)))
    (hs : scanMatch slugAt url.toList = some slugC) (hne : slugC ≠ [])
    (hfp : fp (detailsUrlOf (String.mk slugC))
      = some (some (⟨some raw, some t⟩ :: rest))) :
    extractDetails url fp =
      [⟨(if jsTrimS (String.mk (collapseWs (stripTagsW [' '] raw.toList))) = ""
         then "No description available"
         else jsTrimS (String.mk (collapseWs (stripTagsW [' '] raw.toList)))),
        jsTrimS (String.mk (stripTagsW [] t.toList)),
        yearOf (String.mk slugC)⟩] := by
  have hslug : slugOf url = String.mk slugC := by
    unfold slugOf
    rw [hs]
  have hne' : String.mk slugC ≠ "" := fun h =>
    hne (by simpa using congrArg String.data h)
  unfold extractDetails
  rw [hslug, if_pos hne', hfp]
  simp [detailFields]

theorem C8_api_field_derivation_witness :
    extractDetails "https://ogomovies.com.pk/movies/ronth-2025/"
        (fun _ => some (some [⟨some "<p>A hero rises.</p>", some "Ronth"⟩]))
      = [⟨"A hero rises.", "Ronth", "2025"⟩] := by
  rw [C8_api_field_derivation "https://ogomovies.com.pk/movies/ronth-2025/"
    "<p>A hero rises.</p>" "Ronth" ("ronth-2025".toList) [] _ (by decide)
    (by decide) rfl]
  decide

/-- Claim C9: the operations are pure functions of their input and of the
injected fetch capability; two runs with identical input against extensionally
identical fetch behaviour yield identical output, for all four operations. -/
theorem C9_idempotent (kw u1 u2 u3 : String)
    (fj fj' : String → Option (List SearchItem)) (ft ft' : String → Option String)
    (fp fp' : String → Option (Option (List Post)))
    (hj : ∀ u, fj u = fj' u) (ht : ∀ u, ft u = ft' u) (hp : ∀ u, fp u = fp' u) :
    searchResults kw fj ft = searchResults kw fj' ft' ∧
    extractDetails u1 fp = extractDetails u1 fp' ∧
    extractEpisodes u2 = extractEpisodes u2 ∧
    extractStreamUrl u3 ft = extractStreamUrl u3 ft' := by
  obtain rfl : fj = fj' := funext hj
  obtain rfl : ft = ft' := funext ht
  obtain rfl : fp = fp' := funext hp
  exact ⟨rfl, rfl, rfl, rfl⟩

theorem C9_idempotent_witness :
    searchResults "kw" (fun _ => none) (fun _ => none)
        = searchResults "kw" (fun _ => none) (fun _ => none) ∧
    extractDetails "a" (fun _ => none) = extractDetails "a" (fun _ => none) ∧
    extractEpisodes "b" = extractEpisodes "b" ∧
    extractStreamUrl "c" (fun _ => none) = extractStreamUrl "c" (fun _ => none) :=
  C9_idempotent "kw" "a" "b" "c" _ _ _ _ _ _
    (fun _ => rfl) (fun _ => rfl) (fun _ => rfl)

/-- Claim C10: `extractDetails` always returns a sequence of length exactly
one — a singleton record is built on every path, including the underivable
slug path, the empty API answer, and the catch path of line 123. -/
theorem C10_details_singleton (url : String)
    (fp : String → Option (Option (List Post))) :
    (extractDetails url fp).length = 1 := by
  unfold extractDetails
  by_cases h : slugOf url ≠ ""
  · rw [if_pos h]
    cases fp (detailsUrlOf (slugOf url)) <;> rfl
  · rw [if_neg h]
    rfl

end Ogomovies
